import Mathlib

/-!
# Verification of the ADC sampling-and-reporting pipeline

Shallow embedding of the coordination core of `src/SRV_Projekat/main.c`
(FreeRTOS application for the MSP430F5529): the ADC completion interrupt
handler `vADC12ISR`, the Sampling Coordinator task `prvxTask1`, the command
interpreter `prvxTask2`, and the UART output task `prvxTask3`.

Modelling conventions:
* FreeRTOS queues of capacity `QUEUE_LENGTH` are modelled as `List` values
  together with explicit capacity checks; the head of the list is the front
  of the queue.
* Event-group bits are modelled as a `Nat` bitmask, tested with `&&&`
  exactly as the C code tests `eventValue & mainEVENT_x`.
* The C `uint16_t` values are `Nat` maintained below `2 ^ 16`; the 16-bit
  `int` of the msp430 target is an `Int` obtained through `toInt16`
  (two's-complement reinterpretation of a value reduced mod `2 ^ 16`).
* C integer division truncates toward zero, which is `Int.tdiv`.
* A task body's single loop iteration becomes a pure step function; a step
  that suspends forever-blocking on a full queue (`portMAX_DELAY` send) is
  modelled by the result `none`.
-/

namespace SRVProjekat

/-! ## Constants from main.c -/

/-- Capacity of every queue created in `main` (`#define QUEUE_LENGTH 10`). -/
def QUEUE_LENGTH : Nat := 10

/-- Size of the UART transmit buffer in `prvxTask3` (`#define ARRAY_LENGTH 9`). -/
def ARRAY_LENGTH : Nat := 9

/-- Event bit: the ADC ISR has sent Task1 a message (`0x02`). -/
def mainEVENT_ADC : Nat := 0x02

/-- Event bit: Task2 has detected a '4' on UART input (`0x04`). -/
def mainEVENT_STOP_SENDING : Nat := 0x04

/-- Event bit: Task2 has detected a '1' on UART input (`0x08`). -/
def mainEVENT_SEND_1 : Nat := 0x08

/-- Event bit: Task2 has detected a '2' on UART input (`0x10`). -/
def mainEVENT_SEND_2 : Nat := 0x10

/-- Event bit: Task2 has detected a '3' on UART input (`0x20`). -/
def mainEVENT_SEND_BOTH : Nat := 0x20

/-- Macro `DIGIT2ASCII(x) = x + '0'`, on 8-bit characters. -/
def DIGIT2ASCII (x : Nat) : Nat := (x + 48) % 256

/-! ## Data model -/

/-- The `struct Message` exchanged between the ISR, Task1 and Task3:
a channel tag (`uint8_t`, 1 or 2 in practice) and a converted value
(`uint16_t`). -/
structure Message where
  channel : Nat
  value : Nat
deriving DecidableEq, Repr

/-- The `state_t` enumeration kept by Task1: which channels are currently
forwarded over UART. -/
inductive state_t where
  | SEND_1
  | SEND_2
  | SEND_BOTH
  | DONT_SEND
deriving DecidableEq, Repr

export state_t (SEND_1 SEND_2 SEND_BOTH DONT_SEND)

/-! ## Queue primitives

FreeRTOS queue operations as used by this program. -/

/-- Non-blocking `xQueueReceive(q, &buf, 0)`: returns the front element (or
`none` when the queue is empty, in which case the caller's buffer keeps its
previous contents) and the remaining queue. -/
def xQueueReceiveNB (q : List Message) : Option Message × List Message :=
  match q with
  | [] => (none, [])
  | m :: rest => (some m, rest)

/-- Interrupt-safe `xQueueSendToBackFromISR`: appends when there is room and
silently drops the element when the queue is full (the ISR never blocks). -/
def xQueueSendToBackFromISR (q : List Message) (m : Message) : List Message :=
  if q.length < QUEUE_LENGTH then q ++ [m] else q

/-- Guarded forward used by Task1. When `cond` holds it performs
`xQueueSendToBack(xMessageQueue, &m, portMAX_DELAY)`: the element is
appended when there is room, and with `portMAX_DELAY` a full queue makes
the caller block until space appears, modelled as `none`.  When `cond`
fails the queue is untouched. -/
def forwardIf (cond : Prop) [Decidable cond] (msgQ : List Message) (m : Message) :
    Option (List Message) :=
  if cond then
    (if msgQ.length < QUEUE_LENGTH then some (msgQ ++ [m]) else none)
  else some msgQ

/-! ## The ADC completion interrupt handler (`vADC12ISR`, case ADC12IFG1) -/

/-- Body of the `case 8` (ADC12IFG1) branch of `vADC12ISR`, lines 440-457 of
main.c: build the channel-1 message from `ADC12MEM0 >> 3`, enqueue it on
`xADCQueue`, build the channel-2 message from `ADC12MEM1 >> 3`, enqueue it,
then set the `mainEVENT_ADC` bit once.  Arguments are the two raw conversion
registers, the current handoff queue and the current event-group bits;
the result is the new queue and the new bits. -/
def vADC12ISR_case8 (adc12mem0 adc12mem1 : Nat) (adcQ : List Message) (eventBits : Nat) :
    List Message × Nat :=
  let message1 : Message := ⟨1, adc12mem0 >>> 3⟩
  let adcQ1 := xQueueSendToBackFromISR adcQ message1
  let message2 : Message := ⟨2, adc12mem1 >>> 3⟩
  let adcQ2 := xQueueSendToBackFromISR adcQ1 message2
  (adcQ2, eventBits ||| mainEVENT_ADC)

/-! ## The Sampling Coordinator (`prvxTask1`) -/

/-- The persistent local variables of `prvxTask1`: the selection state, the
message buffer `xMessage` (which survives loop iterations, so a failed
non-blocking receive leaves its previous — initially indeterminate —
contents in place), and the two last-received values. -/
structure Task1State where
  state : state_t
  xMessage : Message
  xFirstChannelLastValue : Nat
  xSecondChannelLastValue : Nat
deriving DecidableEq, Repr

/-- Lines 230-241 of main.c: the four `if (eventValue & ...)` statements
that update `state`, in source order `SEND_1`, `SEND_2`, `SEND_BOTH`,
`STOP_SENDING` — a later assignment overwrites an earlier one. -/
def applySelectionBits (eventValue : Nat) (s : state_t) : state_t :=
  let s1 := if eventValue &&& mainEVENT_SEND_1 ≠ 0 then SEND_1 else s
  let s2 := if eventValue &&& mainEVENT_SEND_2 ≠ 0 then SEND_2 else s1
  let s3 := if eventValue &&& mainEVENT_SEND_BOTH ≠ 0 then SEND_BOTH else s2
  if eventValue &&& mainEVENT_STOP_SENDING ≠ 0 then DONT_SEND else s3

/-- One iteration of the `while(1)` loop of `prvxTask1` (lines 198-242),
given the `eventValue` returned by `xEventGroupWaitBits`, the task state and
the current contents of `xADCQueue` and `xMessageQueue`.  Mirrors the source
order: the `mainEVENT_ADC` block runs first (two non-blocking receives, each
followed by an update of the last-value variable from the — possibly stale —
`xMessage` buffer and a state-guarded blocking forward), and the four
selection-bit `if`s run afterwards.  `none` means the task blocked forever
at a `portMAX_DELAY` send to a full `xMessageQueue`; the rest of that
iteration does not run until a consumer frees space. -/
def prvxTask1Cycle (eventValue : Nat) (st : Task1State)
    (adcQ msgQ : List Message) :
    Option (Task1State × List Message × List Message) :=
  if eventValue &&& mainEVENT_ADC ≠ 0 then
    let p1 := xQueueReceiveNB adcQ
    let m1 := p1.1.getD st.xMessage
    match forwardIf (st.state = SEND_1 ∨ st.state = SEND_BOTH) msgQ m1 with
    | none => none
    | some msgQ1 =>
      let p2 := xQueueReceiveNB p1.2
      let m2 := p2.1.getD m1
      match forwardIf (st.state = SEND_2 ∨ st.state = SEND_BOTH) msgQ1 m2 with
      | none => none
      | some msgQ2 =>
        some (⟨applySelectionBits eventValue st.state, m2, m1.value, m2.value⟩,
          p2.2, msgQ2)
  else
    some (⟨applySelectionBits eventValue st.state, st.xMessage,
      st.xFirstChannelLastValue, st.xSecondChannelLastValue⟩, adcQ, msgQ)

/-- The messages `prvxTask1Cycle` forwards to `xMessageQueue` in one
iteration, as a function of the selection state *at loop entry*, the stale
`xMessage` buffer, the handoff queue and the ADC event bit.  Used to state
which state governs the forwarding decision. -/
def cycleForwards (s : state_t) (stale : Message) (adcQ : List Message)
    (adcBit : Bool) : List Message :=
  if adcBit then
    let m1 := adcQ.head?.getD stale
    let m2 := adcQ.tail.head?.getD m1
    (if s = SEND_1 ∨ s = SEND_BOTH then [m1] else []) ++
      (if s = SEND_2 ∨ s = SEND_BOTH then [m2] else [])
  else []

/-- Number of forwards `prvxTask1Cycle` attempts in one iteration, as a
function of the selection state at loop entry and the ADC event bit. -/
def task1SendAttempts (s : state_t) (adcBit : Bool) : Nat :=
  if adcBit then
    (if s = SEND_1 ∨ s = SEND_BOTH then 1 else 0) +
      (if s = SEND_2 ∨ s = SEND_BOTH then 1 else 0)
  else 0

/-- Runs a sequence of Coordinator wake cycles.  Each element of `evts`
supplies the `eventValue` delivered by `xEventGroupWaitBits` for that cycle
together with the contents of the handoff queue `xADCQueue` at that moment
(arbitrary, so any interleaving with the ADC ISR is covered).  Threads the
task state and the output queue `xMessageQueue`; stops with `none` when a
cycle blocks. -/
def runCycles (evts : List (Nat × List Message)) (st : Task1State)
    (msgQ : List Message) : Option (Task1State × List Message) :=
  match evts with
  | [] => some (st, msgQ)
  | (e, adcQ) :: rest =>
    match prvxTask1Cycle e st adcQ msgQ with
    | none => none
    | some (st', _, msgQ') => runCycles rest st' msgQ'

/-! ## 16-bit arithmetic of the msp430 target -/

/-- Reinterpretation of a machine word as the 16-bit two's-complement signed
integer the msp430's `int` holds. -/
def toInt16 (n : Nat) : Int :=
  if n % 65536 < 32768 then ((n % 65536 : Nat) : Int)
  else ((n % 65536 : Nat) : Int) - 65536

/-- Wraps an `Int` into the 16-bit signed range (the effect of storing it in
a 16-bit `int`). -/
def wrap16 (v : Int) : Int := toInt16 (v % 65536).toNat

/-- C conversion of a signed value to `uint8_t`: reduction mod `2 ^ 8`. -/
def toUInt8 (v : Int) : Nat := (v % 256).toNat

/-- The C expression `a - b` on two `uint16_t` operands (both `< 2 ^ 16`):
unsigned 16-bit subtraction, i.e. subtraction mod `2 ^ 16`. -/
def usub16 (a b : Nat) : Nat := (a + 65536 - b) % 65536

/-! ## The UART transmission task (`prvxTask3`) -/

/-- The persistent local variables of `prvxTask3` that carry information
across loop iterations: the two per-channel previous values, and the display
value `xValueToDisplay`, which keeps its old contents when a message's
channel is neither 1 nor 2. -/
structure Task3State where
  xFirstChannelLastValue : Nat
  xSecondChannelLastValue : Nat
  xValueToDisplay : Int
deriving DecidableEq, Repr

/-- Lines 305-312 of main.c: the value `xValueToDisplay` holds after the two
channel `if`s, i.e. `xMessage.value - x<channel>LastValue` computed in
unsigned 16-bit arithmetic and stored into a 16-bit `int`. -/
def task3Delta (st : Task3State) (msg : Message) : Int :=
  let v1 := if msg.channel = 1 then toInt16 (usub16 msg.value st.xFirstChannelLastValue)
    else st.xValueToDisplay
  if msg.channel = 2 then toInt16 (usub16 msg.value st.xSecondChannelLastValue)
  else v1

/-- Lines 322-326 of main.c: decimal digit extraction.  Takes the (already
sign-corrected) display value and returns `(xHundredDigit, xTenDigit,
xOneDigit)` as the `uint8_t` values the code computes, together with the
final contents of `xValueToDisplay` (which the code decrements by
`xHundredDigit * 100` along the way, in 16-bit `int` arithmetic). -/
def task3Digits (v2 : Int) : (Nat × Nat × Nat) × Int :=
  let xHundredDigit := toUInt8 (Int.tdiv v2 100)
  let v3 := wrap16 (v2 - (xHundredDigit : Int) * 100)
  let xTenDigit := toUInt8 (Int.tdiv v3 10)
  let xOneDigit := toUInt8 (v3 - (xTenDigit : Int) * 10)
  ((xHundredDigit, xTenDigit, xOneDigit), v3)

/-- One iteration of the `while(1)` loop of `prvxTask3` (lines 302-348),
after the blocking receive has delivered `msg` from `xMessageQueue`.
Returns the new task state and the list of bytes written to `UCA1TXBUF`, in
order (the `uartBuffer` contents up to `bufferLength`): channel digit, ':',
' ', a '-' when the delta was negative, the three decimal digits, `\n`,
`\r`. -/
def prvxTask3Cycle (st : Task3State) (msg : Message) : Task3State × List Nat :=
  let v := task3Delta st msg
  let first' := if msg.channel = 1 then msg.value else st.xFirstChannelLastValue
  let second' := if msg.channel = 2 then msg.value else st.xSecondChannelLastValue
  let negative : Bool := decide (¬ 0 ≤ v)
  let v2 := if 0 ≤ v then v else wrap16 (-v)
  let d := task3Digits v2
  let uartBuffer : List Nat :=
    [DIGIT2ASCII msg.channel, 58, 32] ++
      (if negative then [45] else []) ++
      [DIGIT2ASCII d.1.1, DIGIT2ASCII d.1.2.1, DIGIT2ASCII d.1.2.2, 10, 13]
  (⟨first', second', d.2⟩, uartBuffer)

/-! ## The command interpreter (`prvxTask2`) -/

/-- One iteration of `prvxTask2` (lines 258-275): maps a received byte to
the event bits it raises (`0` when the byte is unrecognized and ignored). -/
def prvxTask2Bits (recChar : Nat) : Nat :=
  if recChar = 49 then mainEVENT_SEND_1
  else if recChar = 50 then mainEVENT_SEND_2
  else if recChar = 51 then mainEVENT_SEND_BOTH
  else if recChar = 52 then mainEVENT_STOP_SENDING
  else 0

/-! ## Helper lemmas -/

/-- Unfolding of the non-blocking receive as head and tail. -/
lemma xQueueReceiveNB_eq (q : List Message) : xQueueReceiveNB q = (q.head?, q.tail) := by
  cases q <;> rfl

/-- A successful guarded forward appends exactly when the guard held. -/
lemma forwardIf_some (c : Prop) [Decidable c] (q : List Message) (m : Message)
    (q1 : List Message) (h : forwardIf c q m = some q1) :
    q1 = if c then q ++ [m] else q := by
  unfold forwardIf at h
  by_cases hc : c
  · rw [if_pos hc] at h
    rw [if_pos hc]
    by_cases hl : q.length < QUEUE_LENGTH
    · rw [if_pos hl] at h
      exact (Option.some.injEq _ _ ▸ h).symm
    · rw [if_neg hl] at h
      exact absurd h (by simp)
  · rw [if_neg hc] at h
    rw [if_neg hc]
    exact (Option.some.injEq _ _ ▸ h).symm

/-- A guarded forward blocks (`none`) exactly when the guard held and the
queue was full. -/
lemma forwardIf_none (c : Prop) [Decidable c] (q : List Message) (m : Message) :
    forwardIf c q m = none ↔ c ∧ QUEUE_LENGTH ≤ q.length := by
  unfold forwardIf
  by_cases hc : c
  · rw [if_pos hc]
    by_cases hl : q.length < QUEUE_LENGTH
    · rw [if_pos hl]
      simp [hc]
      omega
    · rw [if_neg hl]
      simp [hc]
      omega
  · rw [if_neg hc]
    simp [hc]

/-- With no selection bit pending, the state `DONT_SEND` is preserved by the
selection updates (a pending stop bit re-assigns `DONT_SEND`). -/
lemma applySelectionBits_dontSend (e : Nat)
    (h1 : e &&& mainEVENT_SEND_1 = 0) (h2 : e &&& mainEVENT_SEND_2 = 0)
    (h3 : e &&& mainEVENT_SEND_BOTH = 0) :
    applySelectionBits e DONT_SEND = DONT_SEND := by
  simp only [applySelectionBits, h1, h2, h3, ne_eq, not_true_eq_false,
    ite_false, if_false]
  split <;> rfl

/-- A Coordinator cycle from state `DONT_SEND` with no selection bit pending
forwards nothing, never blocks, and stays in `DONT_SEND`. -/
lemma cycle_dontSend (e : Nat) (st : Task1State) (adcQ msgQ : List Message)
    (hst : st.state = DONT_SEND)
    (h1 : e &&& mainEVENT_SEND_1 = 0) (h2 : e &&& mainEVENT_SEND_2 = 0)
    (h3 : e &&& mainEVENT_SEND_BOTH = 0) :
    ∃ st' adcQ', prvxTask1Cycle e st adcQ msgQ = some (st', adcQ', msgQ) ∧
      st'.state = DONT_SEND := by
  unfold prvxTask1Cycle
  have hsel : applySelectionBits e st.state = DONT_SEND := by
    rw [hst]; exact applySelectionBits_dontSend e h1 h2 h3
  by_cases hadc : e &&& mainEVENT_ADC ≠ 0
  · rw [if_pos hadc]
    have hc1 : ¬ (st.state = SEND_1 ∨ st.state = SEND_BOTH) := by
      rw [hst]; rintro (h | h) <;> exact absurd h (by simp)
    have hc2 : ¬ (st.state = SEND_2 ∨ st.state = SEND_BOTH) := by
      rw [hst]; rintro (h | h) <;> exact absurd h (by simp)
    simp only [forwardIf, if_neg hc1, if_neg hc2]
    exact ⟨_, _, rfl, hsel⟩
  · rw [if_neg hadc]
    exact ⟨_, _, rfl, hsel⟩

/-- Running any number of Coordinator cycles from `DONT_SEND` with no
selection bit ever pending leaves the output queue untouched and the state
in `DONT_SEND`. -/
lemma runCycles_dontSend (evts : List (Nat × List Message))
    (h : ∀ p ∈ evts, p.1 &&& mainEVENT_SEND_1 = 0 ∧ p.1 &&& mainEVENT_SEND_2 = 0 ∧
      p.1 &&& mainEVENT_SEND_BOTH = 0)
    (st : Task1State) (hst : st.state = DONT_SEND) (msgQ : List Message) :
    ∃ st', runCycles evts st msgQ = some (st', msgQ) ∧ st'.state = DONT_SEND := by
  induction evts generalizing st with
  | nil => exact ⟨st, rfl, hst⟩
  | cons p rest ih =>
    obtain ⟨hp1, hp2, hp3⟩ := h p (List.mem_cons_self p rest)
    obtain ⟨st1, adcQ1, hcyc, hst1⟩ :=
      cycle_dontSend p.1 st p.2 msgQ hst hp1 hp2 hp3
    obtain ⟨st', hrun, hst'⟩ :=
      ih (fun q hq => h q (List.mem_cons_of_mem p hq)) st1 hst1
    refine ⟨st', ?_, hst'⟩
    unfold runCycles
    rw [hcyc]
    exact hrun

/-- The unsigned 16-bit subtraction of two genuine 9-bit measurement values,
reinterpreted as a signed 16-bit integer, is the exact mathematical
difference. -/
lemma toInt16_usub16 (v p : Nat) (hv : v ≤ 511) (hp : p ≤ 511) :
    toInt16 (usub16 v p) = (v : Int) - (p : Int) := by
  unfold toInt16 usub16
  split <;> omega

/-- Storing a value already in signed 16-bit range is the identity. -/
lemma wrap16_eq_self (v : Int) (h0 : 0 ≤ v) (h1 : v < 32768) : wrap16 v = v := by
  unfold wrap16 toInt16
  have he : v % 65536 = v := Int.emod_eq_of_lt h0 (by omega)
  split <;> omega

/-- C truncating division of non-negative 16-bit casts agrees with `Nat`
division. -/
lemma tdiv_ofNat (m k : Nat) : Int.tdiv (m : Int) (k : Int) = ((m / k : Nat) : Int) := rfl

/-- The digit extraction of `prvxTask3` computes the exact three decimal
digits of any magnitude below 1000, and leaves `xValueToDisplay` holding the
remainder below 100. -/
lemma task3Digits_ofNat (n : Nat) (hn : n ≤ 999) :
    task3Digits (n : Int) =
      ((n / 100, n / 10 % 10, n % 10), ((n % 100 : Nat) : Int)) := by
  unfold task3Digits
  dsimp only
  have e1 : Int.tdiv (n : Int) 100 = ((n / 100 : Nat) : Int) := tdiv_ofNat n 100
  have e2 : toUInt8 ((n / 100 : Nat) : Int) = n / 100 := by
    unfold toUInt8
    omega
  have e3 : wrap16 ((n : Int) - ((n / 100 : Nat) : Int) * 100) = ((n % 100 : Nat) : Int) := by
    have : (n : Int) - ((n / 100 : Nat) : Int) * 100 = ((n % 100 : Nat) : Int) := by
      push_cast
      omega
    rw [this]
    exact wrap16_eq_self _ (by positivity) (by omega)
  rw [e1, e2, e3]
  have e4 : Int.tdiv ((n % 100 : Nat) : Int) 10 = ((n % 100 / 10 : Nat) : Int) :=
    tdiv_ofNat (n % 100) 10
  rw [e4]
  have e5 : toUInt8 ((n % 100 / 10 : Nat) : Int) = n / 10 % 10 := by
    unfold toUInt8
    omega
  rw [e5]
  have e6 : toUInt8 (((n % 100 : Nat) : Int) - ((n / 10 % 10 : Nat) : Int) * 10) = n % 10 := by
    unfold toUInt8
    have : ((n % 100 : Nat) : Int) - ((n / 10 % 10 : Nat) : Int) * 10 = ((n % 10 : Nat) : Int) := by
      push_cast
      omega
    rw [this]
    omega
  rw [e6]

/-- Digit extraction applied to the sign-corrected display value yields the
decimal digits of the absolute difference. -/
lemma task3Digits_abs (δ : Int) (h : δ.natAbs ≤ 999) :
    task3Digits (if 0 ≤ δ then δ else wrap16 (-δ)) =
      ((δ.natAbs / 100, δ.natAbs / 10 % 10, δ.natAbs % 10),
        ((δ.natAbs % 100 : Nat) : Int)) := by
  by_cases h0 : 0 ≤ δ
  · rw [if_pos h0]
    have : δ = (δ.natAbs : Int) := by omega
    rw [this]
    exact task3Digits_ofNat δ.natAbs h
  · rw [if_neg h0]
    have hneg : -δ = (δ.natAbs : Int) := by omega
    rw [hneg, wrap16_eq_self _ (by positivity) (by omega)]
    exact task3Digits_ofNat δ.natAbs h

/-- ASCII conversion of a single decimal digit. -/
lemma DIGIT2ASCII_small (k : Nat) (h : k ≤ 9) : DIGIT2ASCII k = 48 + k := by
  unfold DIGIT2ASCII
  omega

/-! ## Claim C1 -/

/-- C1 counterexample.  In a wake cycle where both DataReady
(`mainEVENT_ADC`) and the selection signal `mainEVENT_SEND_1` are pending,
with current state `DONT_SEND` and the pair `(channel 1, 103), (channel 2,
80)` waiting in the handoff queue, the cycle ends with state `SEND_1` — the
selection transition was applied — yet the output queue is still empty: the
newly selected policy did not govern this cycle's pair, because lines
208-228 run before lines 230-241. -/
theorem C1_counterexample :
    prvxTask1Cycle (mainEVENT_ADC ||| mainEVENT_SEND_1)
        ⟨DONT_SEND, ⟨0, 0⟩, 0, 0⟩ [⟨1, 103⟩, ⟨2, 80⟩] [] =
      some (⟨SEND_1, ⟨2, 80⟩, 103, 80⟩, [], []) := by
  decide

/-- Characterization of a completed Coordinator cycle: the new selection
state is the old one updated by the pending bits, and the output queue grows
by exactly the forwards dictated by the old state. -/
lemma cycle_some_spec (e : Nat) (st : Task1State)
    (adcQ msgQ : List Message) (st' : Task1State) (adcQ' msgQ' : List Message)
    (h : prvxTask1Cycle e st adcQ msgQ = some (st', adcQ', msgQ')) :
    st'.state = applySelectionBits e st.state ∧
    msgQ' = msgQ ++
      cycleForwards st.state st.xMessage adcQ (decide (e &&& mainEVENT_ADC ≠ 0)) := by
  by_cases hadc : e &&& mainEVENT_ADC ≠ 0
  · unfold prvxTask1Cycle at h
    rw [if_pos hadc, xQueueReceiveNB_eq] at h
    dsimp only at h
    rw [xQueueReceiveNB_eq] at h
    dsimp only at h
    unfold cycleForwards
    rw [if_pos (by simpa using hadc)]
    cases hf1 : forwardIf (st.state = SEND_1 ∨ st.state = SEND_BOTH) msgQ
        (adcQ.head?.getD st.xMessage) with
    | none =>
      rw [hf1] at h
      simp at h
    | some msgQ1 =>
      rw [hf1] at h
      dsimp only at h
      cases hf2 : forwardIf (st.state = SEND_2 ∨ st.state = SEND_BOTH) msgQ1
          (adcQ.tail.head?.getD (adcQ.head?.getD st.xMessage)) with
      | none =>
        rw [hf2] at h
        simp at h
      | some msgQ2 =>
        rw [hf2] at h
        simp only [Option.some.injEq, Prod.mk.injEq] at h
        obtain ⟨hst', hadq, hmsg⟩ := h
        have h1 := forwardIf_some _ _ _ _ hf1
        have h2 := forwardIf_some _ _ _ _ hf2
        constructor
        · rw [← hst']
        · rw [← hmsg, h2, h1]
          by_cases c1 : st.state = SEND_1 ∨ st.state = SEND_BOTH <;>
            by_cases c2 : st.state = SEND_2 ∨ st.state = SEND_BOTH <;>
            simp [c1, c2]
  · unfold prvxTask1Cycle at h
    rw [if_neg hadc] at h
    unfold cycleForwards
    rw [if_neg (by simpa using hadc)]
    simp only [Option.some.injEq, Prod.mk.injEq] at h
    obtain ⟨hst', hadq, hmsg⟩ := h
    constructor
    · rw [← hst']
    · rw [← hmsg]
      simp

/-- C1 (amended).  In every completed wake cycle of the Coordinator, the
forwarding decision for that cycle's measurement pair is governed by the
selection state held at loop entry; pending selection-signal transitions are
applied only afterwards, so a selection change first takes effect with the
next cycle's pair. -/
theorem C1_selection_applied_after_pair (e : Nat) (st : Task1State)
    (adcQ msgQ : List Message) (st' : Task1State) (adcQ' msgQ' : List Message)
    (h : prvxTask1Cycle e st adcQ msgQ = some (st', adcQ', msgQ')) :
    st'.state = applySelectionBits e st.state ∧
    msgQ' = msgQ ++
      cycleForwards st.state st.xMessage adcQ (decide (e &&& mainEVENT_ADC ≠ 0)) :=
  cycle_some_spec e st adcQ msgQ st' adcQ' msgQ' h

/-- C1 witness: the hypotheses of `C1_selection_applied_after_pair` hold at
the counterexample input, and there the conclusion exhibits an empty forward
list under the old state `DONT_SEND`. -/
theorem C1_witness :
    (⟨SEND_1, ⟨2, 80⟩, 103, 80⟩ : Task1State).state =
        applySelectionBits (mainEVENT_ADC ||| mainEVENT_SEND_1) DONT_SEND ∧
    ([] : List Message) = [] ++
      cycleForwards DONT_SEND ⟨0, 0⟩ [⟨1, 103⟩, ⟨2, 80⟩]
        (decide ((mainEVENT_ADC ||| mainEVENT_SEND_1) &&& mainEVENT_ADC ≠ 0)) :=
  C1_selection_applied_after_pair (mainEVENT_ADC ||| mainEVENT_SEND_1)
    ⟨DONT_SEND, ⟨0, 0⟩, 0, 0⟩ [⟨1, 103⟩, ⟨2, 80⟩] []
    ⟨SEND_1, ⟨2, 80⟩, 103, 80⟩ [] [] (by decide)

/-! ## Claim C2 -/

/-- The forward list of a cycle has as many elements as forwards were
attempted. -/
lemma cycleForwards_length (s : state_t) (stale : Message) (adcQ : List Message)
    (b : Bool) :
    (cycleForwards s stale adcQ b).length = task1SendAttempts s b := by
  unfold cycleForwards task1SendAttempts
  cases b
  · simp
  · by_cases c1 : s = SEND_1 ∨ s = SEND_BOTH <;>
      by_cases c2 : s = SEND_2 ∨ s = SEND_BOTH <;>
      simp [c1, c2]

/-- A successful guarded forward means the guard and a full queue did not
coincide. -/
lemma forwardIf_some_not_full (c : Prop) [Decidable c] (q : List Message)
    (m : Message) (q1 : List Message) (h : forwardIf c q m = some q1) :
    ¬ (c ∧ QUEUE_LENGTH ≤ q.length) := by
  intro hc
  rw [(forwardIf_none c q m).mpr hc] at h
  exact absurd h (by simp)

/-- Exact characterization of when a Coordinator cycle blocks: precisely
when the ADC event is being processed and one of the (at most two) forwards
of the pair finds `xMessageQueue` full at that moment. -/
lemma cycle_none_iff (e : Nat) (st : Task1State) (adcQ msgQ : List Message) :
    prvxTask1Cycle e st adcQ msgQ = none ↔
      (e &&& mainEVENT_ADC ≠ 0 ∧
        (((st.state = SEND_1 ∨ st.state = SEND_BOTH) ∧
            QUEUE_LENGTH ≤ msgQ.length) ∨
          ((st.state = SEND_2 ∨ st.state = SEND_BOTH) ∧
            QUEUE_LENGTH ≤ msgQ.length +
              (if st.state = SEND_1 ∨ st.state = SEND_BOTH then 1 else 0)))) := by
  by_cases hadc : e &&& mainEVENT_ADC ≠ 0
  · unfold prvxTask1Cycle
    rw [if_pos hadc, xQueueReceiveNB_eq]
    dsimp only
    rw [xQueueReceiveNB_eq]
    dsimp only
    cases hf1 : forwardIf (st.state = SEND_1 ∨ st.state = SEND_BOTH) msgQ
        (adcQ.head?.getD st.xMessage) with
    | none =>
      have hb := (forwardIf_none _ _ _).mp hf1
      constructor
      · intro _
        exact ⟨hadc, Or.inl hb⟩
      · intro _
        rfl
    | some msgQ1 =>
      have hq1 := forwardIf_some _ _ _ _ hf1
      have hn1 := forwardIf_some_not_full _ _ _ _ hf1
      have hl1 : msgQ1.length = msgQ.length +
          (if st.state = SEND_1 ∨ st.state = SEND_BOTH then 1 else 0) := by
        rw [hq1]
        split <;> simp
      dsimp only
      cases hf2 : forwardIf (st.state = SEND_2 ∨ st.state = SEND_BOTH) msgQ1
          (adcQ.tail.head?.getD (adcQ.head?.getD st.xMessage)) with
      | none =>
        have hb2 := (forwardIf_none _ _ _).mp hf2
        constructor
        · intro _
          refine ⟨hadc, Or.inr ⟨hb2.1, ?_⟩⟩
          omega
        · intro _
          rfl
      | some msgQ2 =>
        have hn2 := forwardIf_some_not_full _ _ _ _ hf2
        dsimp only
        constructor
        · intro hcontra
          exact absurd hcontra (by simp)
        · rintro ⟨_, hcase | hcase⟩
          · exact absurd hcase hn1
          · refine absurd ?_ hn2
            exact ⟨hcase.1, by omega⟩
  · unfold prvxTask1Cycle
    rw [if_neg hadc]
    simp [hadc]

/-- C2 counterexample.  With state `SEND_1`, a DataReady wake, a pending
measurement, and `xMessageQueue` already holding `QUEUE_LENGTH = 10`
elements, the Coordinator's forward call
`xQueueSendToBack(..., portMAX_DELAY)` blocks (result `none`): the forward
is not dropped and the Coordinator does not continue. -/
theorem C2_counterexample :
    prvxTask1Cycle mainEVENT_ADC ⟨SEND_1, ⟨0, 0⟩, 0, 0⟩ [⟨1, 5⟩, ⟨2, 6⟩]
      [⟨1, 0⟩, ⟨1, 1⟩, ⟨1, 2⟩, ⟨1, 3⟩, ⟨1, 4⟩, ⟨1, 5⟩, ⟨1, 6⟩, ⟨1, 7⟩,
        ⟨1, 8⟩, ⟨1, 9⟩] = none := by
  decide

/-- C2 (amended).  A forward onto a full output queue makes the Coordinator
block until space appears (`portMAX_DELAY`), and this is the only way its
loop fails to complete; a completed cycle has dropped nothing — every
attempted forward is in the output queue. -/
theorem C2_full_queue_blocks_never_drops (e : Nat) (st : Task1State)
    (adcQ msgQ : List Message) :
    (prvxTask1Cycle e st adcQ msgQ = none ↔
      (e &&& mainEVENT_ADC ≠ 0 ∧
        (((st.state = SEND_1 ∨ st.state = SEND_BOTH) ∧
            QUEUE_LENGTH ≤ msgQ.length) ∨
          ((st.state = SEND_2 ∨ st.state = SEND_BOTH) ∧
            QUEUE_LENGTH ≤ msgQ.length +
              (if st.state = SEND_1 ∨ st.state = SEND_BOTH then 1 else 0))))) ∧
    (∀ st' adcQ' msgQ', prvxTask1Cycle e st adcQ msgQ = some (st', adcQ', msgQ') →
      msgQ'.length = msgQ.length +
        task1SendAttempts st.state (decide (e &&& mainEVENT_ADC ≠ 0))) := by
  refine ⟨cycle_none_iff e st adcQ msgQ, ?_⟩
  intro st' adcQ' msgQ' h
  have hs := (cycle_some_spec e st adcQ msgQ st' adcQ' msgQ' h).2
  rw [hs, List.length_append, cycleForwards_length]

/-- C2 witness: a cycle in state `SEND_BOTH` with room in the output queue
completes and both attempted forwards are present. -/
theorem C2_witness :
    prvxTask1Cycle mainEVENT_ADC ⟨SEND_BOTH, ⟨0, 0⟩, 0, 0⟩ [⟨1, 5⟩, ⟨2, 6⟩] [] =
        some (⟨SEND_BOTH, ⟨2, 6⟩, 5, 6⟩, [], [⟨1, 5⟩, ⟨2, 6⟩]) ∧
    ([⟨1, 5⟩, ⟨2, 6⟩] : List Message).length =
      ([] : List Message).length +
        task1SendAttempts SEND_BOTH (decide (mainEVENT_ADC &&& mainEVENT_ADC ≠ 0)) :=
  ⟨by decide,
    (C2_full_queue_blocks_never_drops mainEVENT_ADC ⟨SEND_BOTH, ⟨0, 0⟩, 0, 0⟩
        [⟨1, 5⟩, ⟨2, 6⟩] []).2
      ⟨SEND_BOTH, ⟨2, 6⟩, 5, 6⟩ [] [⟨1, 5⟩, ⟨2, 6⟩] (by decide)⟩

/-! ## Claim C3 -/

/-- C3 failing input.  `prvxTask1` ignores the return value of the
non-blocking `xQueueReceive` at lines 209 and 219.  When a DataReady wake
finds the handoff queue empty (an earlier ISR enqueue was dropped) in state
`SEND_1`, the stale buffer contents `xMessage = {channel 1, value 77}` left
over from an earlier cycle are treated as the new measurement: the last-value
variables are overwritten with the stale value and the stale message is
forwarded to the output queue — the missing measurement is not skipped. -/
theorem C3_stale_message_forwarded :
    prvxTask1Cycle mainEVENT_ADC ⟨SEND_1, ⟨1, 77⟩, 0, 0⟩ [] [] =
      some (⟨SEND_1, ⟨1, 77⟩, 77, 77⟩, [], [⟨1, 77⟩]) := by
  decide

/-! ## Claim C4 -/

/-- C4 counterexample.  Three consecutive steps: (1) a DataReady cycle in
state `SEND_1` forwards the measurement `(channel 1, 103)` to the output
queue; (2) the byte '4' is processed — a `mainEVENT_STOP_SENDING` wake puts
the Coordinator in `DONT_SEND` while `(channel 1, 103)` is still queued;
(3) the Output Task dequeues it and emits the full record "1: 103\n\r"
(bytes 49 58 32 49 48 51 10 13) although no selection command followed the
'4'.  Suppression does not cover measurements already in the output queue. -/
theorem C4_counterexample :
    prvxTask1Cycle mainEVENT_ADC ⟨SEND_1, ⟨0, 0⟩, 0, 0⟩
        [⟨1, 103⟩, ⟨2, 80⟩] [] =
      some (⟨SEND_1, ⟨2, 80⟩, 103, 80⟩, [], [⟨1, 103⟩]) ∧
    prvxTask1Cycle mainEVENT_STOP_SENDING ⟨SEND_1, ⟨2, 80⟩, 103, 80⟩
        [] [⟨1, 103⟩] =
      some (⟨DONT_SEND, ⟨2, 80⟩, 103, 80⟩, [], [⟨1, 103⟩]) ∧
    (prvxTask3Cycle ⟨0, 0, 0⟩ ⟨1, 103⟩).2 = [49, 58, 32, 49, 48, 51, 10, 13] := by
  refine ⟨by decide, by decide, ?_⟩
  decide

/-- C4 (amended).  Processing '4' (a `mainEVENT_STOP_SENDING` wake) puts the
Coordinator in `DONT_SEND`, and from then on no *new* measurement is
forwarded to the output queue until a selection command is processed — the
output queue is left exactly as it was; records for measurements that were
already in the output queue when '4' took effect may however still be
emitted. -/
theorem C4_stop_suppresses_new_forwards (e0 : Nat) (st : Task1State)
    (adcQ msgQ : List Message) (st1 : Task1State) (adcQ1 msgQ1 : List Message)
    (h0 : prvxTask1Cycle e0 st adcQ msgQ = some (st1, adcQ1, msgQ1))
    (hstop : e0 &&& mainEVENT_STOP_SENDING ≠ 0)
    (evts : List (Nat × List Message))
    (hevts : ∀ p ∈ evts, p.1 &&& mainEVENT_SEND_1 = 0 ∧
      p.1 &&& mainEVENT_SEND_2 = 0 ∧ p.1 &&& mainEVENT_SEND_BOTH = 0) :
    st1.state = DONT_SEND ∧
    ∃ st', runCycles evts st1 msgQ1 = some (st', msgQ1) ∧
      st'.state = DONT_SEND := by
  have hs1 : st1.state = DONT_SEND := by
    have := (cycle_some_spec e0 st adcQ msgQ st1 adcQ1 msgQ1 h0).1
    rw [this]
    unfold applySelectionBits
    rw [if_pos hstop]
  exact ⟨hs1, runCycles_dontSend evts hevts st1 hs1 msgQ1⟩

/-- C4 witness: the '4' cycle of the counterexample followed by two further
DataReady-only wakes leaves the single queued measurement in place and the
state in `DONT_SEND`. -/
theorem C4_witness :
    (⟨DONT_SEND, ⟨2, 80⟩, 103, 80⟩ : Task1State).state = DONT_SEND ∧
    ∃ st', runCycles [(mainEVENT_ADC, [⟨1, 7⟩, ⟨2, 8⟩]), (mainEVENT_ADC, [])]
        ⟨DONT_SEND, ⟨2, 80⟩, 103, 80⟩ [⟨1, 103⟩] = some (st', [⟨1, 103⟩]) ∧
      st'.state = DONT_SEND :=
  C4_stop_suppresses_new_forwards mainEVENT_STOP_SENDING
    ⟨SEND_1, ⟨2, 80⟩, 103, 80⟩ [] [⟨1, 103⟩]
    ⟨DONT_SEND, ⟨2, 80⟩, 103, 80⟩ [] [⟨1, 103⟩] (by decide) (by decide)
    [(mainEVENT_ADC, [⟨1, 7⟩, ⟨2, 8⟩]), (mainEVENT_ADC, [])] (by decide)

/-! ## Claim C5 -/

/-- C5.  For every combination of pending wake-signal flags (any
`eventValue` over the five event bits) and every current state, the
selection updates of lines 230-241 yield the state of the highest-priority
pending flag, with priority StopSending > SelectBoth > SelectSecond >
SelectFirst, and leave the state unchanged when no selection flag is
pending: the sequential if-chain applies the flags in the order `SEND_1`,
`SEND_2`, `SEND_BOTH`, `STOP_SENDING`, so the last applicable assignment —
the highest-priority flag — wins deterministically. -/
theorem C5_selection_priority (s : state_t) (e : Nat) (he : e < 64) :
    applySelectionBits e s =
      if e &&& mainEVENT_STOP_SENDING ≠ 0 then DONT_SEND
      else if e &&& mainEVENT_SEND_BOTH ≠ 0 then SEND_BOTH
      else if e &&& mainEVENT_SEND_2 ≠ 0 then SEND_2
      else if e &&& mainEVENT_SEND_1 ≠ 0 then SEND_1
      else s := by
  revert e
  cases s <;> decide

/-- C5 witness: with all four command flags pending simultaneously, the
resulting state is `DONT_SEND` (StopSending wins). -/
theorem C5_witness :
    (60 : Nat) < 64 ∧
    applySelectionBits 60 SEND_1 =
      (if (60 : Nat) &&& mainEVENT_STOP_SENDING ≠ 0 then DONT_SEND
        else if (60 : Nat) &&& mainEVENT_SEND_BOTH ≠ 0 then SEND_BOTH
        else if (60 : Nat) &&& mainEVENT_SEND_2 ≠ 0 then SEND_2
        else if (60 : Nat) &&& mainEVENT_SEND_1 ≠ 0 then SEND_1
        else SEND_1) :=
  ⟨by decide, C5_selection_priority SEND_1 60 (by decide)⟩

/-! ## Claim C6 -/

/-- C6.  Whenever the handoff queue has room for the pair, the
conversion-completion handler appends exactly the channel-1 message with
value `ADC12MEM0 >> 3` followed by the channel-2 message with value
`ADC12MEM1 >> 3` (First before Second), and sets the DataReady bit
`mainEVENT_ADC` once, after both enqueues, leaving all other event bits
unchanged. -/
theorem C6_isr_pair_order_and_values (mem0 mem1 : Nat) (adcQ : List Message)
    (bits : Nat) (hroom : adcQ.length + 2 ≤ QUEUE_LENGTH) :
    vADC12ISR_case8 mem0 mem1 adcQ bits =
      (adcQ ++ [⟨1, mem0 >>> 3⟩, ⟨2, mem1 >>> 3⟩], bits ||| mainEVENT_ADC) := by
  unfold vADC12ISR_case8 xQueueSendToBackFromISR
  dsimp only
  rw [if_pos (by omega : adcQ.length < QUEUE_LENGTH)]
  rw [if_pos (by simp only [List.length_append, List.length_singleton]; omega)]
  simp

/-- C6 witness: the round-trip example pair (824, 640) on an empty queue. -/
theorem C6_witness :
    ([] : List Message).length + 2 ≤ QUEUE_LENGTH ∧
    vADC12ISR_case8 824 640 [] 0 =
      ([] ++ [⟨1, 824 >>> 3⟩, ⟨2, 640 >>> 3⟩], 0 ||| mainEVENT_ADC) :=
  ⟨by decide, C6_isr_pair_order_and_values 824 640 [] 0 (by decide)⟩

/-! ## Claim C7 -/

/-- C7.  For every measurement with a genuine channel (1 or 2) and genuine
9-bit values on both sides, one Output Task cycle computes the delta
`value - PreviousValue[channel]` exactly, emits the record
`<channel digit> ':' ' ' ['-'] <hundreds> <tens> <ones> '\n' '\r'` with the
minus sign present iff the delta is negative and the three zero-padded
decimal digits representing its absolute value exactly, and updates the
channel's previous value to the new value (the other channel's previous
value is untouched). -/
theorem C7_record_format_exact (st : Task3State) (msg : Message)
    (hch : msg.channel = 1 ∨ msg.channel = 2)
    (hv : msg.value ≤ 511)
    (h1 : st.xFirstChannelLastValue ≤ 511)
    (h2 : st.xSecondChannelLastValue ≤ 511) :
    task3Delta st msg = (msg.value : Int) -
        ((if msg.channel = 1 then st.xFirstChannelLastValue
          else st.xSecondChannelLastValue : Nat) : Int) ∧
    (prvxTask3Cycle st msg).2 =
      [48 + msg.channel, 58, 32] ++
        (if task3Delta st msg < 0 then [45] else []) ++
        [48 + (task3Delta st msg).natAbs / 100,
          48 + (task3Delta st msg).natAbs / 10 % 10,
          48 + (task3Delta st msg).natAbs % 10, 10, 13] ∧
    (prvxTask3Cycle st msg).1.xFirstChannelLastValue =
      (if msg.channel = 1 then msg.value else st.xFirstChannelLastValue) ∧
    (prvxTask3Cycle st msg).1.xSecondChannelLastValue =
      (if msg.channel = 2 then msg.value else st.xSecondChannelLastValue) := by
  have hδ : task3Delta st msg = (msg.value : Int) -
      ((if msg.channel = 1 then st.xFirstChannelLastValue
        else st.xSecondChannelLastValue : Nat) : Int) := by
    rcases hch with h | h
    · unfold task3Delta
      rw [h]
      simp only [if_pos rfl, if_neg (by omega : ¬ (1 : Nat) = 2)]
      exact toInt16_usub16 msg.value st.xFirstChannelLastValue hv h1
    · unfold task3Delta
      rw [h]
      simp only [if_pos rfl, if_neg (by omega : ¬ (2 : Nat) = 1)]
      exact toInt16_usub16 msg.value st.xSecondChannelLastValue hv h2
  have habs : (task3Delta st msg).natAbs ≤ 511 := by
    rw [hδ]
    split <;> omega
  refine ⟨hδ, ?_, ?_, ?_⟩
  · unfold prvxTask3Cycle
    dsimp only
    rw [task3Digits_abs (task3Delta st msg) (by omega)]
    dsimp only
    rw [DIGIT2ASCII_small msg.channel (by rcases hch with h | h <;> omega),
      DIGIT2ASCII_small _ (by omega), DIGIT2ASCII_small _ (by omega),
      DIGIT2ASCII_small _ (by omega)]
    by_cases hneg : task3Delta st msg < 0
    · rw [if_pos hneg]
      rw [if_pos (by simpa [Int.not_le] using hneg)]
    · rw [if_neg hneg]
      rw [if_neg (by simpa [Int.not_le] using hneg)]
  · unfold prvxTask3Cycle
    dsimp only
  · unfold prvxTask3Cycle
    dsimp only

/-- C7 witness: the two examples from the claim.  With
`PreviousValue[First] = 100`, value 85 emits "1: -015\n\r" (bytes 49 58 32
45 48 49 53 10 13); value 130 emits "1: 030\n\r" (bytes 49 58 32 48 51 48
10 13); the previous value is updated each time. -/
theorem C7_witness :
    (prvxTask3Cycle ⟨100, 0, 0⟩ ⟨1, 85⟩).2 =
        [49, 58, 32, 45, 48, 49, 53, 10, 13] ∧
    (prvxTask3Cycle ⟨100, 0, 0⟩ ⟨1, 85⟩).1.xFirstChannelLastValue = 85 ∧
    (prvxTask3Cycle ⟨100, 0, 0⟩ ⟨1, 130⟩).2 =
        [49, 58, 32, 48, 51, 48, 10, 13] ∧
    (prvxTask3Cycle ⟨100, 0, 0⟩ ⟨1, 130⟩).1.xFirstChannelLastValue = 130 := by
  have ha := C7_record_format_exact ⟨100, 0, 0⟩ ⟨1, 85⟩ (Or.inl rfl)
    (by decide) (by decide) (by decide)
  have hb := C7_record_format_exact ⟨100, 0, 0⟩ ⟨1, 130⟩ (Or.inl rfl)
    (by decide) (by decide) (by decide)
  exact ⟨ha.2.1.trans (by decide), ha.2.2.1.trans (by decide),
    hb.2.1.trans (by decide), hb.2.2.1.trans (by decide)⟩

/-! ## Claim C8 -/

/-- C8.  For every sequence of wake cycles in which no command bit
(SelectFirst, SelectSecond, SelectBoth, StopSending) is ever delivered —
i.e. no selection command byte was ever received — the Coordinator, started
in its initial state `DONT_SEND` with any initial buffer contents, never
forwards anything: the output queue stays empty forever (so the Output Task
never runs and no record is ever emitted) and the state stays `DONT_SEND`. -/
theorem C8_no_command_no_forward (evts : List (Nat × List Message))
    (h : ∀ p ∈ evts, p.1 &&& mainEVENT_SEND_1 = 0 ∧
      p.1 &&& mainEVENT_SEND_2 = 0 ∧ p.1 &&& mainEVENT_SEND_BOTH = 0 ∧
      p.1 &&& mainEVENT_STOP_SENDING = 0)
    (m : Message) (a b : Nat) :
    ∃ st', runCycles evts ⟨DONT_SEND, m, a, b⟩ [] = some (st', []) ∧
      st'.state = DONT_SEND :=
  runCycles_dontSend evts
    (fun p hp => ⟨(h p hp).1, (h p hp).2.1, (h p hp).2.2.1⟩)
    ⟨DONT_SEND, m, a, b⟩ rfl []

/-- C8 witness: two DataReady-only trigger cycles from boot keep the output
queue empty. -/
theorem C8_witness :
    ∃ st', runCycles
        [(mainEVENT_ADC, [⟨1, 5⟩, ⟨2, 6⟩]), (mainEVENT_ADC, [⟨1, 7⟩, ⟨2, 8⟩])]
        ⟨DONT_SEND, ⟨0, 0⟩, 0, 0⟩ [] = some (st', []) ∧
      st'.state = DONT_SEND :=
  C8_no_command_no_forward
    [(mainEVENT_ADC, [⟨1, 5⟩, ⟨2, 6⟩]), (mainEVENT_ADC, [⟨1, 7⟩, ⟨2, 8⟩])]
    (by decide) ⟨0, 0⟩ 0 0

/-! ## Claim C9 -/

/-- C9.  A 12-bit raw conversion result shifted right by 3 is at most 511,
so every measurement the handler produces has value at most 511; for any two
genuine values, the signed 16-bit delta has magnitude at most 511 < 1000,
and the hundreds/tens/ones decomposition of the Output Task recombines to
exactly that magnitude — the three-digit field never overflows for genuine
measurements. -/
theorem C9_values_bounded_digits_exact (mem0 mem1 : Nat)
    (h0 : mem0 < 4096) (h1 : mem1 < 4096) (v p : Nat)
    (hv : v ≤ 511) (hp : p ≤ 511) :
    (∀ m ∈ (vADC12ISR_case8 mem0 mem1 [] 0).1, m.value ≤ 511) ∧
    (toInt16 (usub16 v p)).natAbs ≤ 511 ∧
    (task3Digits (if 0 ≤ toInt16 (usub16 v p) then toInt16 (usub16 v p)
        else wrap16 (-toInt16 (usub16 v p)))).1.1 * 100 +
      (task3Digits (if 0 ≤ toInt16 (usub16 v p) then toInt16 (usub16 v p)
          else wrap16 (-toInt16 (usub16 v p)))).1.2.1 * 10 +
      (task3Digits (if 0 ≤ toInt16 (usub16 v p) then toInt16 (usub16 v p)
          else wrap16 (-toInt16 (usub16 v p)))).1.2.2 =
      (toInt16 (usub16 v p)).natAbs := by
  have hδ := toInt16_usub16 v p hv hp
  have habs : (toInt16 (usub16 v p)).natAbs ≤ 511 := by
    rw [hδ]
    omega
  refine ⟨?_, habs, ?_⟩
  · intro m hm
    have hisr : vADC12ISR_case8 mem0 mem1 [] 0 =
        ([⟨1, mem0 >>> 3⟩, ⟨2, mem1 >>> 3⟩], 2) := rfl
    rw [hisr] at hm
    have h8 : (2 : Nat) ^ 3 = 8 := rfl
    rcases List.mem_cons.mp hm with rfl | hm2
    · show mem0 >>> 3 ≤ 511
      rw [Nat.shiftRight_eq_div_pow, h8]
      omega
    · rcases List.mem_singleton.mp hm2 with rfl
      show mem1 >>> 3 ≤ 511
      rw [Nat.shiftRight_eq_div_pow, h8]
      omega
  · rw [task3Digits_abs (toInt16 (usub16 v p)) (by omega)]
    dsimp only
    omega

/-- C9 witness: the round-trip values 824 and 640 (giving 103 and 80) and
the delta 103 - 0. -/
theorem C9_witness :
    (∀ m ∈ (vADC12ISR_case8 824 640 [] 0).1, m.value ≤ 511) ∧
    (toInt16 (usub16 103 0)).natAbs ≤ 511 ∧
    (task3Digits (if 0 ≤ toInt16 (usub16 103 0) then toInt16 (usub16 103 0)
        else wrap16 (-toInt16 (usub16 103 0)))).1.1 * 100 +
      (task3Digits (if 0 ≤ toInt16 (usub16 103 0) then toInt16 (usub16 103 0)
          else wrap16 (-toInt16 (usub16 103 0)))).1.2.1 * 10 +
      (task3Digits (if 0 ≤ toInt16 (usub16 103 0) then toInt16 (usub16 103 0)
          else wrap16 (-toInt16 (usub16 103 0)))).1.2.2 =
      (toInt16 (usub16 103 0)).natAbs :=
  C9_values_bounded_digits_exact 824 640 (by decide) (by decide) 103 0
    (by decide) (by decide)

/-! ## Claim C10 -/

/-- C10.  In every formatting-and-send cycle of the Output Task the number
of bytes written into (and then read back from) `uartBuffer` is exactly 9
when the computed delta is negative and exactly 8 otherwise; both are within
the `ARRAY_LENGTH = 9` buffer, so every index used is in bounds. -/
theorem C10_buffer_length_bounds (st : Task3State) (msg : Message) :
    (prvxTask3Cycle st msg).2.length =
      (if task3Delta st msg < 0 then 9 else 8) ∧
    (prvxTask3Cycle st msg).2.length ≤ ARRAY_LENGTH := by
  by_cases h : 0 ≤ task3Delta st msg
  · have hb : (prvxTask3Cycle st msg).2.length = 8 := by
      unfold prvxTask3Cycle
      dsimp only
      simp [h]
    rw [hb, if_neg (by omega)]
    exact ⟨rfl, by decide⟩
  · have hb : (prvxTask3Cycle st msg).2.length = 9 := by
      unfold prvxTask3Cycle
      dsimp only
      simp [h]
    rw [hb, if_pos (by omega)]
    exact ⟨rfl, by decide⟩

end SRVProjekat
